import Mathlib

/-!
Verification of the httpr HTTP client library (shallow embedding).

The embedding follows the Go sources:
  * client.go   : Client.Do (retry loop) and doRequest (response materializer)
  * errors.go   : wrapWithCompressionReader, Is1xx .. Is5xx
  * options.go  : newDefaultSettings, functional options
  * response.go : Response accessors

Modelling conventions:
  * Go durations (time.Duration, an int64 of nanoseconds) are Int.
  * Go byte slices are List Nat; a nil slice is distinguished from an empty
    one with Option where the code distinguishes them.
  * Opaque Go error values are an abstract type e; errors built by the
    library itself (fmt.Errorf wrapping, ctx.Err) are constructors of Err e.
  * A Go pointer that may be nil is Option.
  * A Go method that dereferences a nil pointer panics; an accessor that can
    panic returns Option, with none standing for the runtime panic.
  * The network is abstracted as an oracle giving each attempt's outcome,
    and context cancellation as a predicate on the attempt index.
-/

namespace Httpr

/-- Go time.Duration (int64 nanoseconds). -/
abbrev Duration := Int

/-- Error values flowing through the client.  `e x` is an opaque underlying Go
error (transport error, hook error, gzip error, ...); the other constructors
are the error values the library itself builds:
`wrapRetry n err` is fmt.Errorf("failed to send request after %d attempt(s): %w", n, err),
`ctx` is ctx.Err(),
`wrapCompression err` is fmt.Errorf("unable to wrap response in compression reader: %w", err),
`wrapRead err` is fmt.Errorf("failed to read response bytes: %w", err). -/
inductive Err (e : Type) where
  | e : e → Err e
  | wrapRetry : Int → Err e → Err e
  | ctx : Err e
  | wrapCompression : e → Err e
  | wrapRead : e → Err e
  deriving DecidableEq, Repr

/-- A stub of the http.Request reachable from a response (only its URL is
read by the accessors). -/
structure HttpRequestStub where
  url : String
  deriving DecidableEq, Repr

/-- A stub of a raw *http.Response as the materializer and the accessors see
it.  `bodyBytes` is the content of the body stream, `bodyReadErr` the error
io.ReadAll on that stream produces (none: reading succeeds), `bodyCloseErr`
the error Body.Close() returns. -/
structure HttpResponse (e : Type) where
  statusCode : Int
  header : List (String × List String)
  request : Option HttpRequestStub
  cookies : List String
  bodyBytes : List Nat
  bodyReadErr : Option e
  bodyCloseErr : Option e
  deriving DecidableEq, Repr

/-- response.go: the Response wrapper.  rawResp is a *http.Response (nil
before/without a transport round trip), body the buffered []byte (none for a
nil slice). -/
structure Response (e : Type) where
  rawResp : Option (HttpResponse e)
  body : Option (List Nat)
  deriving DecidableEq, Repr

/-- client.go: clientSettings.  Pointer- or interface-valued fields whose only
observable use inside Do is a nil check (rate limiter, transport, cookie jar,
redirect callback, post-request hook — the latter is an observer with no
effect on Do's state) are modelled by their nil-ness alone. -/
structure ClientSettings (σ ρ e : Type) where
  rateLimiter : Bool
  retryCount : Int
  retryDelay : Duration
  retryDelayDelta : Duration
  retryConditionFn : Option σ → Option (Err e) → Bool
  timeout : Duration
  transport : Bool
  cookieJar : Bool
  decompressionEnabled : Bool
  redirectCheckFn : Bool
  preRequestHookFn : ρ → Option (Err e)
  postRequestHookFn : Bool

/-- options.go: Option is a mutator of clientSettings. -/
abbrev ClientOption (σ ρ e : Type) := ClientSettings σ ρ e → ClientSettings σ ρ e

/-- options.go: newDefaultSettings.  Explicitly set fields as in the source;
all remaining fields are Go zero values. -/
def newDefaultSettings {σ ρ e : Type} : ClientSettings σ ρ e where
  rateLimiter := true
  retryCount := 0
  retryDelay := 0
  retryDelayDelta := 0
  retryConditionFn := fun _ _ => true
  timeout := 0
  transport := false
  cookieJar := false
  decompressionEnabled := false
  redirectCheckFn := true
  preRequestHookFn := fun _ => none
  postRequestHookFn := true

/-- options.go: WithRetryCount. -/
def WithRetryCount {σ ρ e : Type} (retries : Int) : ClientOption σ ρ e :=
  fun s => { s with retryCount := retries }

/-- options.go: WithRetryDelay. -/
def WithRetryDelay {σ ρ e : Type} (delay : Duration) : ClientOption σ ρ e :=
  fun s => { s with retryDelay := delay }

/-- options.go: WithRetryDelayDelta. -/
def WithRetryDelayDelta {σ ρ e : Type} (delayDelta : Duration) : ClientOption σ ρ e :=
  fun s => { s with retryDelayDelta := delayDelta }

/-- options.go: WithRetryCondition. -/
def WithRetryCondition {σ ρ e : Type} (conditionFn : Option σ → Option (Err e) → Bool) :
    ClientOption σ ρ e :=
  fun s => { s with retryConditionFn := conditionFn }

/-- options.go: WithPreRequestHook (the source installs the hook only when it
is non-nil; the argument models a possibly-nil func value). -/
def WithPreRequestHook {σ ρ e : Type} (hookFn : Option (ρ → Option (Err e))) :
    ClientOption σ ρ e :=
  fun s => match hookFn with
    | some f => { s with preRequestHookFn := f }
    | none => s

/-- Applying an ordered list of option mutators over a settings value. -/
def applyOptions {σ ρ e : Type} (s : ClientSettings σ ρ e) (opts : List (ClientOption σ ρ e)) :
    ClientSettings σ ρ e :=
  opts.foldl (fun acc opt => opt acc) s

/-- client.go, Do lines 36-42: settings := c.settings; if len(opts) > 0 the
settings are rebuilt from newDefaultSettings with only the given options
applied. -/
def effectiveSettings {σ ρ e : Type} (clientScoped : ClientSettings σ ρ e)
    (opts : List (ClientOption σ ρ e)) : ClientSettings σ ρ e :=
  if 0 < opts.length then applyOptions newDefaultSettings opts else clientScoped

/-- How Do's retry loop terminates.  `broke` covers both the break on a stop
verdict of the predicate and normal exhaustion of the loop condition (control
then falls through to the wrap-if-error epilogue); `earlyOk` is the in-loop
`return resp, err` (line 72-74, unreachable because its condition repeats
!mustRetry); `ctxDone` is the in-loop `return nil, ctx.Err()`.  Each exit
records the number of attempts performed and the list of backoff durations
actually waited. -/
inductive LoopExit (σ e : Type) where
  | broke : Option σ → Option (Err e) → Nat → List Duration → LoopExit σ e
  | earlyOk : Option σ → Option (Err e) → Nat → List Duration → LoopExit σ e
  | ctxDone : Nat → List Duration → LoopExit σ e

/-- Number of attempts performed when the loop exited. -/
def LoopExit.attemptsOf {σ e : Type} : LoopExit σ e → Nat
  | .broke _ _ a _ => a
  | .earlyOk _ _ a _ => a
  | .ctxDone a _ => a

/-- Backoff durations waited when the loop exited. -/
def LoopExit.waitsOf {σ e : Type} : LoopExit σ e → List Duration
  | .broke _ _ _ w => w
  | .earlyOk _ _ _ w => w
  | .ctxDone _ w => w

/-- client.go, Do lines 64-82, the retry loop.
`attempt r` is the (resp, err) pair the r-th doRequest call produces (a
*Response from doRequest is never nil, hence σ and not Option σ); `canceled r`
tells whether ctx.Done() is ready at the select following attempt r.
`fuel` is retryCount - r, so the loop condition r < retryCount is fuel > 0.
Each iteration: run the attempt, invoke the post-request hook (an observer:
no effect on the state below), evaluate mustRetry, break on a stop verdict,
test the unreachable early-return condition, then select between
time.After(settings.retryDelay) — recording that duration as waited and
performing the dead update retryTime += retryDelayDelta — and ctx.Done(). -/
def doLoop {σ ρ e : Type} (s : ClientSettings σ ρ e) (attempt : Nat → σ × Option (Err e))
    (canceled : Nat → Bool) (retryCount : Int) :
    Nat → Nat → Option σ → Option (Err e) → Duration → List Duration → LoopExit σ e
  | 0, r, resp, err, _retryTime, waits => .broke resp err r waits
  | fuel + 1, r, _resp, _err, retryTime, waits =>
    let p := attempt r
    let mustRetry := s.retryConditionFn (some p.1) p.2
    if !mustRetry then
      .broke (some p.1) p.2 (r + 1) waits
    else if p.2.isNone && decide ((r : Int) ≤ retryCount) && !mustRetry then
      .earlyOk (some p.1) p.2 (r + 1) waits
    else if canceled r then
      .ctxDone (r + 1) waits
    else
      doLoop s attempt canceled retryCount fuel (r + 1) (some p.1) p.2
        (retryTime + s.retryDelayDelta) (waits ++ [s.retryDelay])

/-- The observable outcome of one Client.Do call: the returned
(*Response, error) pair plus the attempt count and waited durations. -/
structure DoResult (σ e : Type) where
  resp : Option σ
  err : Option (Err e)
  attempts : Nat
  waits : List Duration
  deriving DecidableEq, Repr

/-- client.go, Do lines 79-87: how each loop exit turns into Do's returned
pair.  After `break` or normal exhaustion a non-nil err is wrapped with the
configured (un-normalized) settings.retryCount; the in-loop returns bypass
that epilogue. -/
def finishLoop {σ e : Type} (retryCountField : Int) : LoopExit σ e → DoResult σ e
  | .broke resp err attempts waits =>
    match err with
    | some er => ⟨none, some (.wrapRetry retryCountField er), attempts, waits⟩
    | none => ⟨resp, none, attempts, waits⟩
  | .earlyOk resp err attempts waits => ⟨resp, err, attempts, waits⟩
  | .ctxDone attempts waits => ⟨none, some .ctx, attempts, waits⟩

/-- client.go, Client.Do lines 35-88.  Resolve effective settings, take the
rate limiter slot (no observable effect on the result), run the pre-request
hook (aborting verbatim on error with zero attempts), normalize retryCount to
at least 1, initialize retryTime to the base delay, run the loop and apply the
epilogue. -/
def Do {σ ρ e : Type} (clientScoped : ClientSettings σ ρ e) (req : ρ)
    (opts : List (ClientOption σ ρ e)) (attempt : Nat → σ × Option (Err e))
    (canceled : Nat → Bool) : DoResult σ e :=
  let settings := effectiveSettings clientScoped opts
  match settings.preRequestHookFn req with
  | some er => ⟨none, some er, 0, []⟩
  | none =>
    let retryCount := if settings.retryCount < 1 then 1 else settings.retryCount
    finishLoop settings.retryCount
      (doLoop settings attempt canceled retryCount retryCount.toNat 0 none none
        settings.retryDelay [])

/-- errors.go: AcceptGzipHeader. -/
def AcceptGzipHeader : String := "application/gzip"

/-- The reader io.ReadAll drains in doRequest: either the raw response body
or the gzip reader wrapped around it. -/
inductive CompReader (e : Type) where
  | raw : HttpResponse e → CompReader e
  | gz : Except e (List Nat) → Option e → CompReader e

/-- A gzip.NewReader behaviour: on a byte stream it either fails (reading the
gzip header) or yields a reader with a ReadAll outcome and a Close outcome. -/
abbrev GzipNew (e : Type) := List Nat → Except e ((Except e (List Nat)) × Option e)

/-- Go strings.ToLower of a string, viewed through its character list (two Go
strings are equal exactly when their character lists are, so comparing lowered
character lists is the source's lowered-string comparison). -/
def goToLower (s : String) : List Char := s.data.map Char.toLower

/-- errors.go lines 82-90: wrapWithCompressionReader.  Walk the request's
Accept header values; at the first value whose lowercase form is
"application/gzip" return gzip.NewReader(resp.Body); otherwise pass the raw
body through. -/
def wrapWithCompressionReader {e : Type} (gzipNew : GzipNew e) (resp : HttpResponse e) :
    List String → Except e (CompReader e)
  | [] => .ok (.raw resp)
  | mimeType :: rest =>
    if goToLower mimeType = AcceptGzipHeader.data then
      (gzipNew resp.bodyBytes).map fun g => .gz g.1 g.2
    else
      wrapWithCompressionReader gzipNew resp rest

/-- io.ReadAll on the selected reader. -/
def readAllReader {e : Type} : CompReader e → Except e (List Nat)
  | .raw resp =>
    match resp.bodyReadErr with
    | some er => .error er
    | none => .ok resp.bodyBytes
  | .gz content _ => content

/-- client.go lines 200-238: doRequest.  `httpDo` is the outcome of
httpClient.Do (on error the returned *http.Response is nil).  The two
deferred Close calls assign their error to the local variable err, but the
function's results are unnamed — `func doRequest(...) (*Response, error)` —
so by Go semantics those deferred assignments can never change the values
already chosen by a return statement: neither resp.Body's close error
(bodyCloseErr) nor the wrapped reader's close error appears anywhere in the
result. -/
def doRequest {e : Type} (decompressionEnabled : Bool) (accept : List String)
    (httpDo : Except e (HttpResponse e)) (gzipNew : GzipNew e) :
    Response e × Option (Err e) :=
  match httpDo with
  | .error er => (⟨none, none⟩, some (.e er))
  | .ok raw =>
    match (if decompressionEnabled then wrapWithCompressionReader gzipNew raw accept
           else .ok (.raw raw)) with
    | .error er => (⟨some raw, none⟩, some (.wrapCompression er))
    | .ok reader =>
      match readAllReader reader with
      | .error er => (⟨some raw, none⟩, some (.wrapRead er))
      | .ok bs => (⟨some raw, some bs⟩, none)

/-- response.go lines 17-23, Bytes.  Receiver is a possibly-nil *Response;
the r == nil guard makes the method total.  Result none would mean a panic;
Bytes never panics. -/
def Response.Bytes {e : Type} : Option (Response e) → Option (List Nat)
  | none => some []
  | some r => some (if r.rawResp.isNone || r.body.isNone then [] else r.body.getD [])

/-- response.go lines 26-32, Reader.  No r == nil guard: on a nil receiver
the access r.rawResp dereferences a nil pointer and panics (none).  The
returned bytes.Reader is modelled by its contents. -/
def Response.Reader {e : Type} : Option (Response e) → Option (List Nat)
  | none => none
  | some r => some (if r.rawResp.isNone then [] else r.body.getD [])

/-- response.go lines 42-48, StatusCode: r == nil and rawResp == nil guarded. -/
def Response.StatusCode {e : Type} : Option (Response e) → Option Int
  | none => some 0
  | some r =>
    some (match r.rawResp with
      | none => 0
      | some raw => raw.statusCode)

/-- response.go lines 51-62, Headers.  No r == nil guard: panics (none) on a
nil receiver.  Otherwise builds a map taking the first value of every header
key that has one. -/
def Response.Headers {e : Type} : Option (Response e) → Option (List (String × String))
  | none => none
  | some r =>
    match r.rawResp with
    | none => some []
    | some raw => some (raw.header.filterMap fun kv => kv.2.head?.map fun v => (kv.1, v))

/-- response.go lines 65-71, Cookies.  No r == nil guard: panics (none) on a
nil receiver.  With a nil rawResp returns a nil slice (inner none). -/
def Response.Cookies {e : Type} : Option (Response e) → Option (Option (List String))
  | none => none
  | some r =>
    match r.rawResp with
    | none => some none
    | some raw => some (some raw.cookies)

/-- response.go lines 74-80, RequestURL.  r == nil and rawResp == nil
guarded, but with a non-nil rawResp the chain rawResp.Request.URL panics
(none) when Request is nil. -/
def Response.RequestURL {e : Type} : Option (Response e) → Option String
  | none => some ""
  | some r =>
    match r.rawResp with
    | none => some ""
    | some raw => raw.request.map fun q => q.url

/-- response.go lines 84-91, Raw: r == nil guarded, returns the possibly-nil
underlying *http.Response. -/
def Response.Raw {e : Type} : Option (Response e) → Option (Option (HttpResponse e))
  | none => some none
  | some r => some r.rawResp

/-- response.go lines 36-38, String: string(r.Bytes()); the Go string is
modelled by its bytes.  (Declared after the other accessors so that the name
does not shadow the core String type inside their bodies.) -/
def Response.String {e : Type} (r : Option (Response e)) : Option (List Nat) :=
  Response.Bytes r

/-- errors.go lines 115-117. -/
def Is1xx (code : Int) : Bool := decide (code ≥ 200) && decide (code < 300)

/-- errors.go lines 119-121. -/
def Is2xx (code : Int) : Bool := decide (code ≥ 200) && decide (code < 300)

/-- errors.go lines 123-125. -/
def Is3xx (code : Int) : Bool := decide (code ≥ 300) && decide (code < 400)

/-- errors.go lines 127-129. -/
def Is4xx (code : Int) : Bool := decide (code ≥ 400) && decide (code < 500)

/-- errors.go lines 131-133. -/
def Is5xx (code : Int) : Bool := decide (code ≥ 500) && decide (code < 600)

/-! Concrete inputs used by evaluations and counterexamples. -/

/-- A client configured with retryCount 3, base delay 3ns, delta 2ns and the
default always-retry condition. -/
def retry3Settings : ClientSettings Nat Nat Nat :=
  { newDefaultSettings with retryCount := 3, retryDelay := 3, retryDelayDelta := 2 }

/-- A transport that fails on every attempt with the opaque error 5. -/
def alwaysFailAttempt : Nat → Nat × Option (Err Nat) := fun _ => (0, some (.e 5))

/-- A context that is never canceled. -/
def neverCanceled : Nat → Bool := fun _ => false

/-- A successful raw response whose Body.Close() fails with the opaque
error 42 while reading the body succeeds. -/
def closeFailRaw : HttpResponse Nat :=
  { statusCode := 200, header := [], request := none, cookies := [],
    bodyBytes := [1, 2, 3], bodyReadErr := none, bodyCloseErr := some 42 }

/-! Helper lemmas about the retry loop. -/

/-- The epilogue preserves the attempt count of the loop exit. -/
theorem finishLoop_attempts {σ e : Type} (rc : Int) (ex : LoopExit σ e) :
    (finishLoop rc ex).attempts = ex.attemptsOf := by
  cases ex with
  | broke resp err a w => cases err <;> rfl
  | earlyOk resp err a w => rfl
  | ctxDone a w => rfl

/-- The epilogue preserves the waited durations of the loop exit. -/
theorem finishLoop_waits {σ e : Type} (rc : Int) (ex : LoopExit σ e) :
    (finishLoop rc ex).waits = ex.waitsOf := by
  cases ex with
  | broke resp err a w => cases err <;> rfl
  | earlyOk resp err a w => rfl
  | ctxDone a w => rfl

/-- The loop performs at most `fuel` further attempts. -/
theorem doLoop_attempts_le {σ ρ e : Type} (s : ClientSettings σ ρ e)
    (attempt : Nat → σ × Option (Err e)) (canceled : Nat → Bool) (rc : Int) :
    ∀ (fuel r : Nat) (resp : Option σ) (err : Option (Err e)) (rt : Duration)
      (waits : List Duration),
      (doLoop s attempt canceled rc fuel r resp err rt waits).attemptsOf ≤ r + fuel := by
  intro fuel
  induction fuel with
  | zero =>
    intro r resp err rt waits
    simp [doLoop, LoopExit.attemptsOf]
  | succ n ih =>
    intro r resp err rt waits
    simp only [doLoop]
    split
    · simp [LoopExit.attemptsOf]
    · split
      · simp [LoopExit.attemptsOf]
      · split
        · simp [LoopExit.attemptsOf]
        · have := ih (r + 1) (some (attempt r).1) (attempt r).2
            (rt + s.retryDelayDelta) (waits ++ [s.retryDelay])
          omega

/-- If the waits accumulated so far are bounded by the attempts performed so
far, every loop exit keeps the waited durations bounded by the attempts. -/
theorem doLoop_waits_le_attempts {σ ρ e : Type} (s : ClientSettings σ ρ e)
    (attempt : Nat → σ × Option (Err e)) (canceled : Nat → Bool) (rc : Int) :
    ∀ (fuel r : Nat) (resp : Option σ) (err : Option (Err e)) (rt : Duration)
      (waits : List Duration), waits.length ≤ r →
      ((doLoop s attempt canceled rc fuel r resp err rt waits).waitsOf).length ≤
        (doLoop s attempt canceled rc fuel r resp err rt waits).attemptsOf := by
  intro fuel
  induction fuel with
  | zero =>
    intro r resp err rt waits h
    simpa [doLoop, LoopExit.attemptsOf, LoopExit.waitsOf] using h
  | succ n ih =>
    intro r resp err rt waits h
    simp only [doLoop]
    split
    · simp [LoopExit.attemptsOf, LoopExit.waitsOf]; omega
    · split
      · simp [LoopExit.attemptsOf, LoopExit.waitsOf]; omega
      · split
        · simp [LoopExit.attemptsOf, LoopExit.waitsOf]; omega
        · exact ih (r + 1) (some (attempt r).1) (attempt r).2
            (rt + s.retryDelayDelta) (waits ++ [s.retryDelay]) (by simp; omega)

/-- When the retry condition always authorizes another attempt and the
context is never canceled, the loop consumes all its fuel, waiting the base
delay after every attempt. -/
theorem doLoop_all_retry {σ ρ e : Type} (s : ClientSettings σ ρ e)
    (attempt : Nat → σ × Option (Err e)) (canceled : Nat → Bool) (rc : Int)
    (hpred : ∀ ro er, s.retryConditionFn ro er = true)
    (hcan : ∀ n, canceled n = false) :
    ∀ (fuel r : Nat) (resp : Option σ) (err : Option (Err e)) (rt : Duration)
      (waits : List Duration),
      (doLoop s attempt canceled rc fuel r resp err rt waits).attemptsOf = r + fuel ∧
      (doLoop s attempt canceled rc fuel r resp err rt waits).waitsOf =
        waits ++ List.replicate fuel s.retryDelay := by
  intro fuel
  induction fuel with
  | zero =>
    intro r resp err rt waits
    simp [doLoop, LoopExit.attemptsOf, LoopExit.waitsOf]
  | succ n ih =>
    intro r resp err rt waits
    simp only [doLoop, hpred, hcan, Bool.not_true, Bool.false_eq_true, if_false,
      Bool.and_false, Bool.and_self]
    have := ih (r + 1) (some (attempt r).1) (attempt r).2
      (rt + s.retryDelayDelta) (waits ++ [s.retryDelay])
    refine ⟨by omega, ?_⟩
    rw [this.2]
    simp [List.replicate_succ]

/-- If the retry condition authorizes the first k attempts, the context is
never canceled during their waits, and the condition then signals stop on
attempt r + k (still within the fuel), the loop breaks right there with that
attempt's pair, having waited k base delays. -/
theorem doLoop_stop_at {σ ρ e : Type} (s : ClientSettings σ ρ e)
    (attempt : Nat → σ × Option (Err e)) (canceled : Nat → Bool) (rc : Int) :
    ∀ (k fuel r : Nat) (resp : Option σ) (err : Option (Err e)) (rt : Duration)
      (waits : List Duration),
      (∀ i, r ≤ i → i < r + k →
        s.retryConditionFn (some (attempt i).1) (attempt i).2 = true) →
      (∀ i, r ≤ i → i < r + k → canceled i = false) →
      s.retryConditionFn (some (attempt (r + k)).1) (attempt (r + k)).2 = false →
      k < fuel →
      doLoop s attempt canceled rc fuel r resp err rt waits =
        .broke (some (attempt (r + k)).1) (attempt (r + k)).2 (r + k + 1)
          (waits ++ List.replicate k s.retryDelay) := by
  intro k
  induction k with
  | zero =>
    intro fuel r resp err rt waits _hpred _hcan hstop hfuel
    obtain ⟨m, rfl⟩ : ∃ m, fuel = m + 1 := ⟨fuel - 1, by omega⟩
    simp only [Nat.add_zero] at hstop ⊢
    simp [doLoop, hstop]
  | succ n ih =>
    intro fuel r resp err rt waits hpred hcan hstop hfuel
    obtain ⟨m, rfl⟩ : ∃ m, fuel = m + 1 := ⟨fuel - 1, by omega⟩
    have hr : s.retryConditionFn (some (attempt r).1) (attempt r).2 = true :=
      hpred r (Nat.le_refl r) (by omega)
    have hcr : canceled r = false := hcan r (Nat.le_refl r) (by omega)
    have hrec := ih m (r + 1) (some (attempt r).1) (attempt r).2
      (rt + s.retryDelayDelta) (waits ++ [s.retryDelay])
      (fun i h1 h2 => hpred i (by omega) (by omega))
      (fun i h1 h2 => hcan i (by omega) (by omega))
      (by have := hstop; rw [show r + 1 + n = r + (n + 1) by omega]; exact this)
      (by omega)
    simp only [doLoop, hr, hcr, Bool.not_true, Bool.false_eq_true, if_false,
      Bool.and_false, Bool.and_self]
    rw [hrec]
    have h1 : r + 1 + n = r + (n + 1) := by omega
    have h2 : waits ++ [s.retryDelay] ++ List.replicate n s.retryDelay =
        waits ++ List.replicate (n + 1) s.retryDelay := by
      simp [List.replicate_succ]
    rw [h1, h2]

/-- With fuel for exactly one more attempt, every exit path reports one more
attempt performed. -/
theorem doLoop_fuel_one {σ ρ e : Type} (s : ClientSettings σ ρ e)
    (attempt : Nat → σ × Option (Err e)) (canceled : Nat → Bool) (rc : Int)
    (r : Nat) (resp : Option σ) (err : Option (Err e)) (rt : Duration)
    (waits : List Duration) :
    (doLoop s attempt canceled rc 1 r resp err rt waits).attemptsOf = r + 1 := by
  simp only [doLoop]
  split
  · rfl
  · split
    · rfl
    · split
      · rfl
      · rfl

/-- On gzip-free Accept values the wrapper passes the raw body through. -/
theorem wrap_raw_of_not_mem {e : Type} (gzipNew : GzipNew e) (resp : HttpResponse e) :
    ∀ accept : List String, (∀ m ∈ accept, goToLower m ≠ AcceptGzipHeader.data) →
      wrapWithCompressionReader gzipNew resp accept = .ok (.raw resp) := by
  intro accept
  induction accept with
  | nil => intro _; rfl
  | cons a rest ih =>
    intro h
    have ha : goToLower a ≠ AcceptGzipHeader.data := h a (by simp)
    simp only [wrapWithCompressionReader, if_neg ha]
    exact ih fun m hm => h m (by simp [hm])

/-- As soon as some Accept value lowers to "application/gzip" the wrapper
returns gzip.NewReader of the raw body. -/
theorem wrap_gzip_of_mem {e : Type} (gzipNew : GzipNew e) (resp : HttpResponse e) :
    ∀ accept : List String, (∃ m ∈ accept, goToLower m = AcceptGzipHeader.data) →
      wrapWithCompressionReader gzipNew resp accept =
        (gzipNew resp.bodyBytes).map fun g => .gz g.1 g.2 := by
  intro accept
  induction accept with
  | nil => rintro ⟨m, hm, _⟩; exact absurd hm (List.not_mem_nil m)
  | cons a rest ih =>
    rintro ⟨m, hm, hlow⟩
    by_cases ha : goToLower a = AcceptGzipHeader.data
    · simp only [wrapWithCompressionReader, if_pos ha]
    · simp only [wrapWithCompressionReader, if_neg ha]
      rcases List.mem_cons.mp hm with h | h
      · exact absurd (h ▸ hlow) ha
      · exact ih ⟨m, h, hlow⟩

/-! Claim theorems. -/

/-- Claim C10: for every integer status code, Is1xx returns true exactly when
200 ≤ code < 300 — the same range as Is2xx — and in particular returns false
on the whole 100-199 informational range. -/
theorem c10_is1xx_range :
    ∀ code : Int, (Is1xx code = true ↔ 200 ≤ code ∧ code < 300) ∧
      Is1xx code = Is2xx code ∧
      (100 ≤ code ∧ code < 200 → Is1xx code = false) := by
  intro code
  refine ⟨?_, rfl, ?_⟩
  · simp only [Is1xx, Bool.and_eq_true, decide_eq_true_eq, ge_iff_le]
  · rintro ⟨h1, h2⟩
    simp only [Is1xx, Bool.and_eq_false_iff, decide_eq_false_iff_not, ge_iff_le, not_le, not_lt]
    omega

/-- Witness for C10 at the concrete code 150: the hypothesis 100 ≤ 150 < 200
holds and Is1xx classifies 150 as false. -/
theorem c10_is1xx_range_witness :
    (100 ≤ (150 : Int) ∧ (150 : Int) < 200) ∧ Is1xx 150 = false :=
  ⟨by decide, (c10_is1xx_range 150).2.2 (by decide)⟩

/-- Counterexample to claim C6: the accessors Reader, Headers and Cookies
perform no nil-receiver guard, so invoked on a nil *Response they dereference
the nil pointer and panic (modelled by none) instead of returning their
result type's zero value. -/
theorem c6_nil_accessor_counterexample :
    Response.Reader (e := Nat) none = none ∧
    Response.Headers (e := Nat) none = none ∧
    Response.Cookies (e := Nat) none = none :=
  ⟨rfl, rfl, rfl⟩

/-- Claim C6 as amended: on a zero-initialized Response every accessor is
safe and returns its result type's zero value, and on a nil Response pointer
the guarded accessors Bytes, String, StatusCode, RequestURL and Raw return
their zero values without panicking (Reader, Headers and Cookies, which are
unguarded, panic on the nil pointer). -/
theorem c6_accessors_amended (e : Type) :
    Response.Bytes (e := e) none = some [] ∧
    Response.String (e := e) none = some [] ∧
    Response.StatusCode (e := e) none = some 0 ∧
    Response.RequestURL (e := e) none = some "" ∧
    Response.Raw (e := e) none = some none ∧
    Response.Bytes (some (⟨none, none⟩ : Response e)) = some [] ∧
    Response.Reader (some (⟨none, none⟩ : Response e)) = some [] ∧
    Response.String (some (⟨none, none⟩ : Response e)) = some [] ∧
    Response.StatusCode (some (⟨none, none⟩ : Response e)) = some 0 ∧
    Response.Headers (some (⟨none, none⟩ : Response e)) = some [] ∧
    Response.Cookies (some (⟨none, none⟩ : Response e)) = some none ∧
    Response.RequestURL (some (⟨none, none⟩ : Response e)) = some "" ∧
    Response.Raw (some (⟨none, none⟩ : Response e)) = some none :=
  ⟨rfl, rfl, rfl, rfl, rfl, rfl, rfl, rfl, rfl, rfl, rfl, rfl, rfl⟩

/-- Claim C5, evaluation at the failing input: a fully successful attempt
whose Body.Close() fails with error 42.  Because doRequest's results are
unnamed, the deferred assignment of the close error to the local err never
reaches the caller: the attempt reports no error at all, so the close failure
is silently dropped rather than reported. -/
theorem c5_close_error_dropped_eval :
    doRequest false [] (Except.ok closeFailRaw) (fun _ => Except.error 0) =
      (⟨some closeFailRaw, some [1, 2, 3]⟩, none) ∧
    closeFailRaw.bodyCloseErr = some 42 :=
  ⟨rfl, rfl⟩

/-- Claim C1, evaluation at the failing input: retryCount 3, base delay 3,
delta 2, always-retry condition, always-failing transport, no cancellation.
Every wait the loop performs lasts time.After(settings.retryDelay) = 3; the
accumulator retryTime grows by the delta but is never read, so the waited
durations are [3, 3, 3] and not the [base, base+delta, base+2*delta] growth
the claim describes. -/
theorem c1_backoff_constant_eval :
    (Do retry3Settings 0 [] alwaysFailAttempt neverCanceled).waits = [3, 3, 3] ∧
    (Do retry3Settings 0 [] alwaysFailAttempt neverCanceled).waits ≠ [3, 3 + 2, 3 + 2 + 2] := by
  decide

/-- A client configured with retryCount 2 and base delay 1ns, default
always-retry condition. -/
def retry2Settings : ClientSettings Nat Nat Nat :=
  { newDefaultSettings with retryCount := 2, retryDelay := 1 }

/-- A client whose retry condition retries exactly while the attempt errored,
with retryCount 3 and base delay 7ns. -/
def stopSettings : ClientSettings Nat Nat Nat :=
  { (newDefaultSettings : ClientSettings Nat Nat Nat) with
    retryCount := 3
    retryDelay := 7
    retryConditionFn := fun _ er => er.isSome }

/-- A transport failing on the first two attempts and succeeding afterwards. -/
def stopAttempt : Nat → Nat × Option (Err Nat) :=
  fun n => if n < 2 then (0, some (.e 9)) else (n, none)

/-- A client whose retry condition always signals stop, with retryCount 3. -/
def stopNowSettings : ClientSettings Nat Nat Nat :=
  { (newDefaultSettings : ClientSettings Nat Nat Nat) with
    retryCount := 3
    retryConditionFn := fun _ _ => false }

/-- A transport failing every attempt with response 9 and error 7. -/
def failAttempt9 : Nat → Nat × Option (Err Nat) := fun _ => (9, some (.e 7))

/-- A client whose pre-request hook always vetoes with error 3. -/
def hookFailSettings : ClientSettings Nat Nat Nat :=
  { (newDefaultSettings : ClientSettings Nat Nat Nat) with
    preRequestHookFn := fun _ => some (.e 3)
    retryCount := 5 }

/-- Client-scoped settings differing from the defaults in the retry delay. -/
def shadowSettings : ClientSettings Nat Nat Nat := { newDefaultSettings with retryDelay := 9 }

/-- A gzip-compressed stream in miniature: compression prepends a 0 byte. -/
def gzipDemoNew : GzipNew Nat := fun bs =>
  match bs with
  | 0 :: rest => .ok (.ok rest, none)
  | _ => .error 7

/-- A raw response carrying the demo-compressed form of [5, 6]. -/
def gzipDemoRaw : HttpResponse Nat :=
  { statusCode := 200, header := [], request := none, cookies := [],
    bodyBytes := [0, 5, 6], bodyReadErr := none, bodyCloseErr := none }

/-- Claim C2: the loop bound is max(1, retryCount): a non-positive configured
retry count yields exactly one attempt; retryCount = N > 1 with an
always-retry predicate, an always-failing transport and no cancellation
yields exactly N attempts; and in every case the attempt count never exceeds
max(1, retryCount). -/
theorem c2_attempt_budget {σ ρ e : Type} (clientScoped : ClientSettings σ ρ e) (req : ρ)
    (opts : List (ClientOption σ ρ e)) (attempt : Nat → σ × Option (Err e))
    (canceled : Nat → Bool)
    (hhook : (effectiveSettings clientScoped opts).preRequestHookFn req = none) :
    ((effectiveSettings clientScoped opts).retryCount ≤ 0 →
      (Do clientScoped req opts attempt canceled).attempts = 1) ∧
    (∀ N : Nat, 1 < N → (effectiveSettings clientScoped opts).retryCount = (N : Int) →
      (∀ ro er, (effectiveSettings clientScoped opts).retryConditionFn ro er = true) →
      (∀ n, ((attempt n).2).isSome = true) →
      (∀ n, canceled n = false) →
      (Do clientScoped req opts attempt canceled).attempts = N) ∧
    (Do clientScoped req opts attempt canceled).attempts ≤
      (max 1 (effectiveSettings clientScoped opts).retryCount).toNat := by
  refine ⟨?_, ?_, ?_⟩
  · intro hle
    simp only [Do, hhook, finishLoop_attempts]
    have h1 : (if (effectiveSettings clientScoped opts).retryCount < 1 then 1
        else (effectiveSettings clientScoped opts).retryCount) = 1 := by
      rw [if_pos]; omega
    rw [h1]
    simpa using doLoop_fuel_one (effectiveSettings clientScoped opts) attempt canceled 1 0
      none none (effectiveSettings clientScoped opts).retryDelay []
  · intro N hN hrc hpred hfail hcan
    simp only [Do, hhook, finishLoop_attempts]
    have h1 : (if (effectiveSettings clientScoped opts).retryCount < 1 then 1
        else (effectiveSettings clientScoped opts).retryCount) = (N : Int) := by
      rw [hrc, if_neg]; omega
    rw [h1]
    have h2 := (doLoop_all_retry (effectiveSettings clientScoped opts) attempt canceled
      (N : Int) hpred hcan (Int.toNat (N : Int)) 0 none none
      (effectiveSettings clientScoped opts).retryDelay []).1
    rw [h2]
    omega
  · simp only [Do, hhook, finishLoop_attempts]
    have h2 : (if (effectiveSettings clientScoped opts).retryCount < 1 then 1
        else (effectiveSettings clientScoped opts).retryCount) =
        max 1 (effectiveSettings clientScoped opts).retryCount := by
      split <;> omega
    rw [h2]
    have h1 := doLoop_attempts_le (effectiveSettings clientScoped opts) attempt canceled
      (max 1 (effectiveSettings clientScoped opts).retryCount)
      (Int.toNat (max 1 (effectiveSettings clientScoped opts).retryCount)) 0 none none
      (effectiveSettings clientScoped opts).retryDelay []
    omega

/-- Witness for C2: the default client (retryCount 0) performs exactly one
attempt, and a client with retryCount 2, always-retry condition and
always-failing transport performs exactly two. -/
theorem c2_attempt_budget_witness :
    (Do (newDefaultSettings : ClientSettings Nat Nat Nat) 0 [] alwaysFailAttempt
        neverCanceled).attempts = 1 ∧
    (Do retry2Settings 0 [] alwaysFailAttempt neverCanceled).attempts = 2 :=
  ⟨(c2_attempt_budget newDefaultSettings 0 [] alwaysFailAttempt neverCanceled rfl).1
      (by decide),
   (c2_attempt_budget retry2Settings 0 [] alwaysFailAttempt neverCanceled rfl).2.1 2
      (by decide) rfl (fun _ _ => rfl) (fun _ => rfl) (fun _ => rfl)⟩

/-- Counterexample to claim C3: with an always-stop predicate and a transport
that fails with error 7 while producing response 9, Do does not return the
attempt's exact pair: the response is dropped and the error is wrapped in the
retry-exhaustion error. -/
theorem c3_stop_pair_counterexample :
    (Do stopNowSettings 0 [] failAttempt9 neverCanceled).attempts = 1 ∧
    (Do stopNowSettings 0 [] failAttempt9 neverCanceled).err =
      some (Err.wrapRetry 3 (Err.e 7)) ∧
    ¬ ((Do stopNowSettings 0 [] failAttempt9 neverCanceled).resp = some 9 ∧
       (Do stopNowSettings 0 [] failAttempt9 neverCanceled).err = some (Err.e 7)) := by
  decide

/-- Claim C3 as amended: when the retry condition signals stop on attempt k
(within the budget), the loop exits immediately — no further attempts and no
further backoff wait.  If that attempt's error is nil the exact pair is
returned; if it is non-nil, Do returns a nil response and the error wrapped
in the retry-exhaustion error naming the configured retry count. -/
theorem c3_stop_immediate_amended {σ ρ e : Type} (clientScoped : ClientSettings σ ρ e)
    (req : ρ) (opts : List (ClientOption σ ρ e)) (attempt : Nat → σ × Option (Err e))
    (canceled : Nat → Bool) (k : Nat)
    (hhook : (effectiveSettings clientScoped opts).preRequestHookFn req = none)
    (hpred : ∀ i, i < k → (effectiveSettings clientScoped opts).retryConditionFn
      (some (attempt i).1) (attempt i).2 = true)
    (hcan : ∀ i, i < k → canceled i = false)
    (hstop : (effectiveSettings clientScoped opts).retryConditionFn
      (some (attempt k).1) (attempt k).2 = false)
    (hk : (k : Int) < if (effectiveSettings clientScoped opts).retryCount < 1 then 1
      else (effectiveSettings clientScoped opts).retryCount) :
    Do clientScoped req opts attempt canceled =
      (match (attempt k).2 with
       | none => ⟨some (attempt k).1, none, k + 1,
           List.replicate k (effectiveSettings clientScoped opts).retryDelay⟩
       | some er => ⟨none,
           some (.wrapRetry (effectiveSettings clientScoped opts).retryCount er), k + 1,
           List.replicate k (effectiveSettings clientScoped opts).retryDelay⟩) := by
  simp only [Do, hhook]
  have h1 : (1 : Int) ≤ (if (effectiveSettings clientScoped opts).retryCount < 1 then 1
      else (effectiveSettings clientScoped opts).retryCount) := by
    split <;> omega
  have hfuel : k < Int.toNat (if (effectiveSettings clientScoped opts).retryCount < 1
      then 1 else (effectiveSettings clientScoped opts).retryCount) := by
    omega
  rw [doLoop_stop_at (effectiveSettings clientScoped opts) attempt canceled _ k _ 0
    none none (effectiveSettings clientScoped opts).retryDelay []
    (fun i _ h2 => hpred i (by omega)) (fun i _ h2 => hcan i (by omega))
    (by simpa using hstop) hfuel]
  simp only [Nat.zero_add, List.nil_append]
  cases h : (attempt k).2 <;> simp [finishLoop, h]

/-- Witness for C3: retrying while the attempt errors, with failures on
attempts 0 and 1 and success on attempt 2, Do stops right at attempt 2 and
returns that pair with two waits of the base delay 7. -/
theorem c3_stop_immediate_amended_witness :
    Do stopSettings 0 [] stopAttempt neverCanceled = ⟨some 2, none, 3, [7, 7]⟩ := by
  have h := c3_stop_immediate_amended stopSettings 0 [] stopAttempt neverCanceled 2 rfl
    (by intro i hi; interval_cases i <;> rfl) (fun _ _ => rfl) rfl (by decide)
  simpa [stopAttempt] using h

/-- Claim C4: a pre-request hook veto aborts the call with zero attempts (and
zero waits), returning an absent response and the hook's error verbatim. -/
theorem c4_prehook_abort {σ ρ e : Type} (clientScoped : ClientSettings σ ρ e) (req : ρ)
    (opts : List (ClientOption σ ρ e)) (attempt : Nat → σ × Option (Err e))
    (canceled : Nat → Bool) (er : Err e)
    (hhook : (effectiveSettings clientScoped opts).preRequestHookFn req = some er) :
    Do clientScoped req opts attempt canceled = ⟨none, some er, 0, []⟩ := by
  simp [Do, hhook]

/-- Witness for C4 at a client whose hook vetoes with error 3 despite a
retry budget of 5. -/
theorem c4_prehook_abort_witness :
    Do hookFailSettings 0 [] alwaysFailAttempt neverCanceled =
      ⟨none, some (Err.e 3), 0, []⟩ :=
  c4_prehook_abort hookFailSettings 0 [] alwaysFailAttempt neverCanceled (Err.e 3) rfl

/-- Claim C7: with at least one call-scoped option the effective settings are
built from an independent fresh default with only those options applied —
they do not depend on the client-scoped settings at all — and with no options
the client's standing settings are used unchanged. -/
theorem c7_settings_shadow {σ ρ e : Type} :
    (∀ (a b : ClientSettings σ ρ e) (opts : List (ClientOption σ ρ e)), opts ≠ [] →
      effectiveSettings a opts = applyOptions newDefaultSettings opts ∧
      effectiveSettings a opts = effectiveSettings b opts) ∧
    ∀ a : ClientSettings σ ρ e, effectiveSettings a [] = a := by
  constructor
  · intro a b opts h
    have hl : 0 < opts.length := List.length_pos.mpr h
    exact ⟨by simp [effectiveSettings, hl], by simp [effectiveSettings, hl]⟩
  · intro a
    simp [effectiveSettings]

/-- Witness for C7: a WithRetryCount override shadows a client whose delay
differs from the default, and an empty override list leaves it unchanged. -/
theorem c7_settings_shadow_witness :
    effectiveSettings shadowSettings [WithRetryCount 5] =
      applyOptions newDefaultSettings [WithRetryCount 5] ∧
    effectiveSettings shadowSettings [WithRetryCount 5] =
      effectiveSettings newDefaultSettings [WithRetryCount 5] ∧
    effectiveSettings shadowSettings [] = shadowSettings :=
  ⟨(c7_settings_shadow.1 shadowSettings newDefaultSettings [WithRetryCount 5]
      (List.cons_ne_nil _ _)).1,
   (c7_settings_shadow.1 shadowSettings newDefaultSettings [WithRetryCount 5]
      (List.cons_ne_nil _ _)).2,
   c7_settings_shadow.2 shadowSettings⟩

/-- Counterexample to claim C8: with retryCount 2, an always-retry condition
and an always-failing transport the call performs 2 attempts but also 2
delay waits — the loop waits once more after the final permitted attempt, so
"at most N-1 waits" fails. -/
theorem c8_wait_after_last_counterexample :
    (Do retry2Settings 0 [] alwaysFailAttempt neverCanceled).attempts = 2 ∧
    ¬ ((Do retry2Settings 0 [] alwaysFailAttempt neverCanceled).waits).length ≤
        (Do retry2Settings 0 [] alwaysFailAttempt neverCanceled).attempts - 1 := by
  decide

/-- Claim C8 as amended: a call that performs N attempts executes at most N
delay waits (not N-1: when the retry condition authorizes retry on the final
permitted attempt, one more backoff wait happens before the loop exits; only
a stop verdict exits without waiting). -/
theorem c8_waits_bound_amended {σ ρ e : Type} (clientScoped : ClientSettings σ ρ e)
    (req : ρ) (opts : List (ClientOption σ ρ e)) (attempt : Nat → σ × Option (Err e))
    (canceled : Nat → Bool) :
    ((Do clientScoped req opts attempt canceled).waits).length ≤
      (Do clientScoped req opts attempt canceled).attempts := by
  cases h : (effectiveSettings clientScoped opts).preRequestHookFn req with
  | some er => simp [Do, h]
  | none =>
    simp only [Do, h]
    rw [finishLoop_waits, finishLoop_attempts]
    exact doLoop_waits_le_attempts _ _ _ _ _ _ _ _ _ _ (Nat.le_refl 0)

/-- Claim C9: with decompression enabled, an Accept value lowering to
"application/gzip" routes the body through gzip.NewReader, so a body that is
the compression of some plaintext buffers as exactly that plaintext; with no
recognized encoding value the raw stream passes through unmodified without
failing; with decompression disabled the raw bytes are buffered unchanged. -/
theorem c9_decompression_roundtrip {e : Type} (raw : HttpResponse e) (gzipNew : GzipNew e)
    (accept : List String) (plain : List Nat) (compress : List Nat → List Nat)
    (gzClose : Option e) :
    ((∃ m ∈ accept, goToLower m = AcceptGzipHeader.data) →
      (∀ bs, gzipNew (compress bs) = Except.ok (Except.ok bs, gzClose)) →
      raw.bodyBytes = compress plain →
      doRequest true accept (Except.ok raw) gzipNew = (⟨some raw, some plain⟩, none)) ∧
    ((∀ m ∈ accept, goToLower m ≠ AcceptGzipHeader.data) → raw.bodyReadErr = none →
      doRequest true accept (Except.ok raw) gzipNew =
        (⟨some raw, some raw.bodyBytes⟩, none)) ∧
    (raw.bodyReadErr = none →
      doRequest false accept (Except.ok raw) gzipNew =
        (⟨some raw, some raw.bodyBytes⟩, none)) := by
  refine ⟨?_, ?_, ?_⟩
  · intro hmem hrt hbody
    have hw := wrap_gzip_of_mem gzipNew raw accept hmem
    rw [hbody, hrt plain] at hw
    simp only [Except.map] at hw
    simp [doRequest, hw, readAllReader]
  · intro hnone hread
    simp [doRequest, wrap_raw_of_not_mem gzipNew raw accept hnone, readAllReader, hread]
  · intro hread
    simp [doRequest, readAllReader, hread]

/-- Witness for C9: with the demo codec (compression prepends a 0 byte), an
upper-case Accept value "Application/GZIP" decodes [0, 5, 6] back to [5, 6];
an unrelated Accept value passes [0, 5, 6] through; and with decompression
disabled the compressed bytes pass through. -/
theorem c9_decompression_roundtrip_witness :
    doRequest true ["Application/GZIP"] (Except.ok gzipDemoRaw) gzipDemoNew =
      (⟨some gzipDemoRaw, some [5, 6]⟩, none) ∧
    doRequest true ["text/csv"] (Except.ok gzipDemoRaw) gzipDemoNew =
      (⟨some gzipDemoRaw, some [0, 5, 6]⟩, none) ∧
    doRequest false ["Application/GZIP"] (Except.ok gzipDemoRaw) gzipDemoNew =
      (⟨some gzipDemoRaw, some [0, 5, 6]⟩, none) :=
  ⟨(c9_decompression_roundtrip gzipDemoRaw gzipDemoNew ["Application/GZIP"] [5, 6]
      (fun bs => 0 :: bs) none).1 ⟨"Application/GZIP", by simp, by decide⟩
      (fun _ => rfl) rfl,
   (c9_decompression_roundtrip gzipDemoRaw gzipDemoNew ["text/csv"] [5, 6]
      (fun bs => 0 :: bs) none).2.1 (by decide) rfl,
   (c9_decompression_roundtrip gzipDemoRaw gzipDemoNew ["Application/GZIP"] [5, 6]
      (fun bs => 0 :: bs) none).2.2 rfl⟩

end Httpr
